import Mathlib

/-!
Shallow embedding of the pinocchio record-store program
(src/instruction.rs, src/processor.rs, src/state.rs, src/error.rs, src/lib.rs).

Byte buffers are `List Nat` (each entry a byte value), public keys are 32-byte
`List Nat`, balances (lamports) are `Nat` values that the host keeps below
`2 ^ 64` (Rust `u64`).  The deployment target (Solana BPF) is 64-bit, so the
host size type `usize` has the same range as `u64`; saturating and checked
arithmetic on it are modelled explicitly.  Rust panics (out-of-bounds slicing,
`copy_from_slice` length mismatch, `Option::unwrap` on `None`) are modelled as
a distinct `panicked` outcome, separate from returning a `ProgramError`.
-/

/-- Subset of pinocchio `ProgramError` values the program can surface, plus
`Custom` for the program's own `RecordError` discriminants
(`IncorrectAuthority = 0`, `Overflow = 1`, from src/error.rs). -/
inductive ProgramError where
  | InvalidInstructionData
  | InvalidAccountData
  | InvalidArgument
  | AccountAlreadyInitialized
  | UninitializedAccount
  | MissingRequiredSignature
  | AccountDataTooSmall
  | NotEnoughAccountKeys
  | Custom (code : Nat)
  deriving DecidableEq

/-- The `RecordError::IncorrectAuthority` variant converted to a program error (`Custom 0`). -/
def RecordErrorIncorrectAuthority : ProgramError := ProgramError.Custom 0

/-- The `RecordError::Overflow` variant converted to a program error (`Custom 1`). -/
def RecordErrorOverflow : ProgramError := ProgramError.Custom 1

/-- The five operation variants of `RecordInstruction` (src/instruction.rs).
The first variant is `Initialize` in the source; `Write.offset` is a `u64`
value and `Reallocate.data_length` is a `u64` value, both held as `Nat`. -/
inductive RecordInstruction where
  | InitializeRecord
  | Write (offset : Nat) (data : List Nat)
  | SetAuthority
  | CloseAccount
  | Reallocate (data_length : Nat)
  deriving DecidableEq

/-- Little-endian value of a byte list (`uXX::from_le_bytes`). -/
def leDecode (bs : List Nat) : Nat :=
  bs.foldr (fun b acc => b + 256 * acc) 0

/-- The `w` little-endian bytes of `n % 256 ^ w` (`uXX::to_le_bytes`). -/
def leBytes : Nat → Nat → List Nat
  | 0, _ => []
  | w + 1, n => n % 256 :: leBytes w (n / 256)

/-- Outcome of `RecordInstruction::unpack`: a Rust panic, a returned
`ProgramError`, or a decoded instruction. -/
inductive UnpackOut where
  | panicked
  | fail (e : ProgramError)
  | ok (i : RecordInstruction)
  deriving DecidableEq

/-- Decoder `RecordInstruction::unpack` (src/instruction.rs lines 14-55).
`input.split_first()` failing on an empty buffer, `rest.get(..8)` failing,
and an unrecognized tag all return `InvalidInstructionData`.
`rest[8..].split_at(4)` panics when fewer than 4 bytes remain, and
`&data[..length]` panics when `length` exceeds `data.len()`. -/
def unpack (input : List Nat) : UnpackOut :=
  match input with
  | [] => .fail ProgramError.InvalidInstructionData
  | tag :: rest =>
    if tag = 0 then .ok RecordInstruction.InitializeRecord
    else if tag = 1 then
      if rest.length < 8 then .fail ProgramError.InvalidInstructionData
      else if rest.length - 8 < 4 then .panicked
      else
        let offset := leDecode (rest.take 8)
        let lenField := leDecode ((rest.drop 8).take 4)
        let data := (rest.drop 8).drop 4
        if data.length < lenField then .panicked
        else .ok (RecordInstruction.Write offset (data.take lenField))
    else if tag = 2 then .ok RecordInstruction.SetAuthority
    else if tag = 3 then .ok RecordInstruction.CloseAccount
    else if tag = 4 then
      if rest.length < 8 then .fail ProgramError.InvalidInstructionData
      else .ok (RecordInstruction.Reallocate (leDecode (rest.take 8)))
    else .fail ProgramError.InvalidInstructionData

/-- Encoder `RecordInstruction::pack` (src/instruction.rs lines 58-76).  The length
field is `data.len() as u32`, i.e. the length reduced modulo `2 ^ 32`;
the offset and data_length fields are `u64` little-endian. -/
def pack : RecordInstruction → List Nat
  | RecordInstruction.InitializeRecord => [0]
  | RecordInstruction.Write offset data =>
      1 :: (leBytes 8 offset ++ (leBytes 4 data.length ++ data))
  | RecordInstruction.SetAuthority => [2]
  | RecordInstruction.CloseAccount => [3]
  | RecordInstruction.Reallocate data_length => 4 :: leBytes 8 data_length

/-- Host account handle: identity key (32 bytes), signer flag, balance
(lamports, a `u64` value), and the raw byte buffer. -/
structure AccountInfo where
  key : List Nat
  is_signer : Bool
  lamports : Nat
  data : List Nat
  deriving DecidableEq

/-- Largest `u64` value. -/
def U64_MAX : Nat := 2 ^ 64 - 1

/-- Largest `usize` value on the 64-bit target (equal to `U64_MAX`). -/
def USIZE_MAX : Nat := 2 ^ 64 - 1

/-- Saturating addition `usize::saturating_add`. -/
def satAdd (a b : Nat) : Nat := min (a + b) USIZE_MAX

/-- Constant `RecordData::CURRENT_VERSION` (src/state.rs). -/
def CURRENT_VERSION : Nat := 1

/-- Constant `RecordData::WRITABLE_START_INDEX` (src/state.rs): the 33-byte header
(1 version byte + 32 authority bytes) precedes the payload;
`size_of::<RecordData>()` is the same 33. -/
def WRITABLE_START_INDEX : Nat := 33

/-- Predicate `RecordData::is_initialized` read through the bytemuck overlay:
the version field is byte 0 of the buffer. -/
def recordIsInitialized (buf : List Nat) : Bool :=
  buf.head? == some CURRENT_VERSION

/-- The authority field of the header overlay: bytes 1..33 of the buffer. -/
def recordAuthority (buf : List Nat) : List Nat :=
  (buf.drop 1).take 32

/-- Overwrite bytes `[start, start + bytes.length)` of `buf` with `bytes`
(`copy_from_slice` semantics, and the bytemuck overlay field stores, which
always stay within the 33-byte window for a 32-byte key). -/
def writeBytesAt (buf : List Nat) (start : Nat) (bytes : List Nat) : List Nat :=
  buf.take start ++ bytes ++ buf.drop (start + bytes.length)

/-- Host buffer-resize primitive (`AccountInfo::realloc`): resize to exactly
`n` bytes.  The content of newly added bytes is unspecified by the spec
(host-default); it is modelled as zero. -/
def hostRealloc (buf : List Nat) (n : Nat) : List Nat :=
  buf.take n ++ List.replicate (n - buf.length) 0

/-- Outcome of the processor: a Rust panic, a returned `ProgramError`
together with the (unmutated) accounts, or success with the final accounts.
Every error return in the source happens before any mutation of its arm,
so error outcomes carry the incoming account list unchanged. -/
inductive POut where
  | panicked
  | fail (e : ProgramError) (accounts : List AccountInfo)
  | ok (accounts : List AccountInfo)
  deriving DecidableEq

/-- Authority guard `check_authority` (src/processor.rs lines 8-16): identity mismatch is
reported first, then the missing signer proof; `none` means `Ok(())`. -/
def check_authority (authority_info : AccountInfo) (expected_authority : List Nat) :
    Option ProgramError :=
  if expected_authority ≠ authority_info.key then
    some RecordErrorIncorrectAuthority
  else if authority_info.is_signer = false then
    some ProgramError.MissingRequiredSignature
  else
    none

/-- The `Initialize` arm (src/processor.rs lines 26-48).  The bytemuck cast of
the exact 33-byte window cannot fail (size 33, alignment 1), so its
`InvalidArgument` branch is dead; the overlay stores write the authority field
(bytes 1..33) and then the version field (byte 0). -/
def processInitArm (accounts : List AccountInfo) : POut :=
  match accounts[0]? with
  | none => .fail ProgramError.NotEnoughAccountKeys accounts
  | some data_info =>
  match accounts[1]? with
  | none => .fail ProgramError.NotEnoughAccountKeys accounts
  | some authority_info =>
    let raw_data := data_info.data
    if raw_data.length < WRITABLE_START_INDEX then
      .fail ProgramError.InvalidAccountData accounts
    else if recordIsInitialized raw_data then
      .fail ProgramError.AccountAlreadyInitialized accounts
    else
      .ok (accounts.set 0 { data_info with
        data := writeBytesAt (writeBytesAt raw_data 1 authority_info.key) 0
          [CURRENT_VERSION] })

/-- The `Write` arm (src/processor.rs lines 50-75): header checks, authority
check, then `start = 33.saturating_add(offset)`, `end = start.saturating_add
(data.len())`, bounds check against the buffer length, and the copy, which
panics if the destination range `[start, end)` and `data` differ in length
(possible only when the saturating additions actually saturated). -/
def processWriteArm (accounts : List AccountInfo) (offset : Nat) (data : List Nat) :
    POut :=
  match accounts[0]? with
  | none => .fail ProgramError.NotEnoughAccountKeys accounts
  | some data_info =>
  match accounts[1]? with
  | none => .fail ProgramError.NotEnoughAccountKeys accounts
  | some authority_info =>
    let raw_data := data_info.data
    if raw_data.length < WRITABLE_START_INDEX then
      .fail ProgramError.InvalidAccountData accounts
    else if !recordIsInitialized raw_data then
      .fail ProgramError.UninitializedAccount accounts
    else
    match check_authority authority_info (recordAuthority raw_data) with
    | some e => .fail e accounts
    | none =>
      let start := satAdd WRITABLE_START_INDEX offset
      let stop := satAdd start data.length
      if stop > raw_data.length then
        .fail ProgramError.AccountDataTooSmall accounts
      else if stop - start ≠ data.length then
        .panicked
      else
        .ok (accounts.set 0 { data_info with data := writeBytesAt raw_data start data })

/-- The `SetAuthority` arm (src/processor.rs lines 77-95): header checks,
authority check, then the overlay store of the new authority key into
bytes 1..33. -/
def processSetAuthorityArm (accounts : List AccountInfo) : POut :=
  match accounts[0]? with
  | none => .fail ProgramError.NotEnoughAccountKeys accounts
  | some data_info =>
  match accounts[1]? with
  | none => .fail ProgramError.NotEnoughAccountKeys accounts
  | some authority_info =>
  match accounts[2]? with
  | none => .fail ProgramError.NotEnoughAccountKeys accounts
  | some new_authority_info =>
    let raw_data := data_info.data
    if raw_data.length < WRITABLE_START_INDEX then
      .fail ProgramError.InvalidAccountData accounts
    else if !recordIsInitialized raw_data then
      .fail ProgramError.UninitializedAccount accounts
    else
    match check_authority authority_info (recordAuthority raw_data) with
    | some e => .fail e accounts
    | none =>
      .ok (accounts.set 0 { data_info with
        data := writeBytesAt raw_data 1 new_authority_info.key })

/-- The `CloseAccount` arm (src/processor.rs lines 97-120): header checks,
authority check, then `destination_starting_lamports.checked_add
(data_lamports)` — `None` (sum above `u64::MAX`) yields `RecordError::
Overflow` before either balance is written; on success the destination
balance is the sum and the record balance is zeroed. -/
def processCloseArm (accounts : List AccountInfo) : POut :=
  match accounts[0]? with
  | none => .fail ProgramError.NotEnoughAccountKeys accounts
  | some data_info =>
  match accounts[1]? with
  | none => .fail ProgramError.NotEnoughAccountKeys accounts
  | some authority_info =>
  match accounts[2]? with
  | none => .fail ProgramError.NotEnoughAccountKeys accounts
  | some destination_info =>
    let raw_data := data_info.data
    if raw_data.length < WRITABLE_START_INDEX then
      .fail ProgramError.InvalidAccountData accounts
    else if !recordIsInitialized raw_data then
      .fail ProgramError.UninitializedAccount accounts
    else
    match check_authority authority_info (recordAuthority raw_data) with
    | some e => .fail e accounts
    | none =>
      let destination_starting_lamports := destination_info.lamports
      let data_lamports := data_info.lamports
      if destination_starting_lamports + data_lamports > U64_MAX then
        .fail RecordErrorOverflow accounts
      else
        .ok ((accounts.set 2 { destination_info with
          lamports := destination_starting_lamports + data_lamports }).set 0
            { data_info with lamports := 0 })

/-- The `Reallocate` arm (src/processor.rs lines 122-152): header checks,
authority check, then `needed = size_of::<RecordData>().checked_add(
usize::try_from(data_length)?)` — on the 64-bit target `usize::try_from`
of a `u64` never fails (its `InvalidArgument` branch is dead for `u64`
inputs), and the `.unwrap()` of the checked addition panics when
`33 + data_length` exceeds `usize::MAX`.  A buffer already at least
`needed` bytes long is left alone; otherwise the host resizes it to
exactly `needed` bytes. -/
def processReallocArm (accounts : List AccountInfo) (data_length : Nat) : POut :=
  match accounts[0]? with
  | none => .fail ProgramError.NotEnoughAccountKeys accounts
  | some data_info =>
  match accounts[1]? with
  | none => .fail ProgramError.NotEnoughAccountKeys accounts
  | some authority_info =>
    let raw_data := data_info.data
    if raw_data.length < WRITABLE_START_INDEX then
      .fail ProgramError.InvalidAccountData accounts
    else if !recordIsInitialized raw_data then
      .fail ProgramError.UninitializedAccount accounts
    else
    match check_authority authority_info (recordAuthority raw_data) with
    | some e => .fail e accounts
    | none =>
      if data_length > USIZE_MAX then
        .fail ProgramError.InvalidArgument accounts
      else if WRITABLE_START_INDEX + data_length > USIZE_MAX then
        .panicked
      else
        let needed_account_length := WRITABLE_START_INDEX + data_length
        if raw_data.length ≥ needed_account_length then
          .ok accounts
        else
          .ok (accounts.set 0 { data_info with
            data := hostRealloc raw_data needed_account_length })

/-- Entry point `process_instruction` (src/processor.rs lines 18-154): decode the
instruction, then dispatch to the arm; the `_program_id` parameter is
never read. -/
def process_instruction (_program_id : List Nat) (accounts : List AccountInfo)
    (input : List Nat) : POut :=
  match unpack input with
  | .panicked => .panicked
  | .fail e => .fail e accounts
  | .ok RecordInstruction.InitializeRecord => processInitArm accounts
  | .ok (RecordInstruction.Write offset data) => processWriteArm accounts offset data
  | .ok RecordInstruction.SetAuthority => processSetAuthorityArm accounts
  | .ok RecordInstruction.CloseAccount => processCloseArm accounts
  | .ok (RecordInstruction.Reallocate data_length) => processReallocArm accounts data_length

/-- Number of positional accounts each operation reads through
`get_account_info!` before doing anything else. -/
def requiredAccounts : RecordInstruction → Nat
  | RecordInstruction.InitializeRecord => 2
  | RecordInstruction.Write _ _ => 2
  | RecordInstruction.SetAuthority => 3
  | RecordInstruction.CloseAccount => 3
  | RecordInstruction.Reallocate _ => 2

theorem leDecode_nil : leDecode [] = 0 := rfl

theorem leDecode_cons (b : Nat) (bs : List Nat) :
    leDecode (b :: bs) = b + 256 * leDecode bs := rfl

theorem leBytes_length (w n : Nat) : (leBytes w n).length = w := by
  induction w generalizing n with
  | zero => simp [leBytes]
  | succ w ih => simp [leBytes, ih]

theorem leDecode_leBytes (w n : Nat) : leDecode (leBytes w n) = n % 256 ^ w := by
  induction w generalizing n with
  | zero => simp [leBytes, leDecode_nil, Nat.mod_one]
  | succ w ih =>
    rw [leBytes, leDecode_cons, ih, pow_succ, mul_comm (256 ^ w) 256, Nat.mod_mul]

theorem processInitArm_short (accounts : List AccountInfo)
    (h : accounts.length < 2) :
    processInitArm accounts = .fail ProgramError.NotEnoughAccountKeys accounts := by
  match accounts with
  | [] => rfl
  | [a] => rfl
  | a :: b :: t => simp at h; omega

theorem processWriteArm_short (accounts : List AccountInfo) (offset : Nat)
    (data : List Nat) (h : accounts.length < 2) :
    processWriteArm accounts offset data =
      .fail ProgramError.NotEnoughAccountKeys accounts := by
  match accounts with
  | [] => rfl
  | [a] => rfl
  | a :: b :: t => simp at h; omega

theorem processSetAuthorityArm_short (accounts : List AccountInfo)
    (h : accounts.length < 3) :
    processSetAuthorityArm accounts =
      .fail ProgramError.NotEnoughAccountKeys accounts := by
  match accounts with
  | [] => rfl
  | [a] => rfl
  | [a, b] => rfl
  | a :: b :: c :: t => simp at h; omega

theorem processCloseArm_short (accounts : List AccountInfo)
    (h : accounts.length < 3) :
    processCloseArm accounts = .fail ProgramError.NotEnoughAccountKeys accounts := by
  match accounts with
  | [] => rfl
  | [a] => rfl
  | [a, b] => rfl
  | a :: b :: c :: t => simp at h; omega

theorem processReallocArm_short (accounts : List AccountInfo) (data_length : Nat)
    (h : accounts.length < 2) :
    processReallocArm accounts data_length =
      .fail ProgramError.NotEnoughAccountKeys accounts := by
  match accounts with
  | [] => rfl
  | [a] => rfl
  | a :: b :: t => simp at h; omega

/-- C4: the authority check reports `IncorrectAuthority` whenever the presented
identity differs from the stored one, regardless of the signer flag; it reports
`MissingRequiredSignature` only when the identity matches but the signer proof
is absent; and it succeeds when the identity matches and the proof is present —
so the two failure outcomes are always distinguishable. -/
theorem C4_authority_check (a : AccountInfo) (expected : List Nat) :
    (expected ≠ a.key →
      check_authority a expected = some RecordErrorIncorrectAuthority) ∧
    (expected = a.key → a.is_signer = false →
      check_authority a expected = some ProgramError.MissingRequiredSignature) ∧
    (expected = a.key → a.is_signer = true →
      check_authority a expected = none) := by
  refine ⟨fun h => ?_, fun h hs => ?_, fun h hs => ?_⟩
  · simp [check_authority, h]
  · simp [check_authority, h, hs]
  · simp [check_authority, h, hs]

theorem C4_authority_check_witness :
    ((List.replicate 32 9 : List Nat) ≠ (List.replicate 32 7 : List Nat) ∧
      check_authority ⟨List.replicate 32 7, true, 0, []⟩ (List.replicate 32 9) =
        some RecordErrorIncorrectAuthority) ∧
    check_authority ⟨List.replicate 32 7, false, 0, []⟩ (List.replicate 32 7) =
      some ProgramError.MissingRequiredSignature ∧
    check_authority ⟨List.replicate 32 7, true, 0, []⟩ (List.replicate 32 7) =
      none :=
  ⟨⟨by decide, (C4_authority_check ⟨List.replicate 32 7, true, 0, []⟩
      (List.replicate 32 9)).1 (by decide)⟩,
    (C4_authority_check ⟨List.replicate 32 7, false, 0, []⟩
      (List.replicate 32 7)).2.1 rfl rfl,
    (C4_authority_check ⟨List.replicate 32 7, true, 0, []⟩
      (List.replicate 32 7)).2.2 rfl rfl⟩

/-- C10: `process_instruction` never reads its `program_id` argument: any two
program ids give the same outcome and the same final accounts on every fixed
account list and instruction byte string. -/
theorem C10_program_id_unused (pid1 pid2 : List Nat) (accounts : List AccountInfo)
    (input : List Nat) :
    process_instruction pid1 accounts input =
      process_instruction pid2 accounts input := rfl

/-- C9: whichever operation the input decodes to, an account list shorter than
the number of positional accounts that operation requires (2 for Initialize,
Write, Reallocate; 3 for SetAuthority, CloseAccount) makes the call return
`NotEnoughAccountKeys` with every account buffer and balance unmutated. -/
theorem C9_not_enough_accounts (pid : List Nat) (accounts : List AccountInfo)
    (input : List Nat) (instr : RecordInstruction)
    (hup : unpack input = UnpackOut.ok instr)
    (hlen : accounts.length < requiredAccounts instr) :
    process_instruction pid accounts input =
      .fail ProgramError.NotEnoughAccountKeys accounts := by
  unfold process_instruction
  rw [hup]
  cases instr with
  | InitializeRecord =>
    exact processInitArm_short accounts (by simpa [requiredAccounts] using hlen)
  | Write offset data =>
    exact processWriteArm_short accounts offset data
      (by simpa [requiredAccounts] using hlen)
  | SetAuthority =>
    exact processSetAuthorityArm_short accounts
      (by simpa [requiredAccounts] using hlen)
  | CloseAccount =>
    exact processCloseArm_short accounts (by simpa [requiredAccounts] using hlen)
  | Reallocate data_length =>
    exact processReallocArm_short accounts data_length
      (by simpa [requiredAccounts] using hlen)

theorem C9_not_enough_accounts_witness :
    unpack [2] = UnpackOut.ok RecordInstruction.SetAuthority ∧
    ([] : List AccountInfo).length < requiredAccounts RecordInstruction.SetAuthority ∧
    process_instruction [] [] [2] = .fail ProgramError.NotEnoughAccountKeys [] :=
  ⟨by decide, by decide,
    C9_not_enough_accounts [] [] [2] RecordInstruction.SetAuthority (by decide)
      (by decide)⟩

/-- C1 counterexample: a `Write` instruction whose 4-byte length field is
truncated (tag 1 followed by the full 8-byte offset and nothing more) makes
`unpack` panic (`split_at` out of bounds) instead of returning
`InvalidInstructionData`; likewise a declared length (5) exceeding the
remaining bytes (0) makes it panic (`&data[..length]` out of bounds). -/
theorem C1_counterexample :
    unpack [1, 0, 0, 0, 0, 0, 0, 0, 0] = UnpackOut.panicked ∧
    unpack [1, 0, 0, 0, 0, 0, 0, 0, 0] ≠
      UnpackOut.fail ProgramError.InvalidInstructionData ∧
    unpack [1, 0, 0, 0, 0, 0, 0, 0, 0, 5, 0, 0, 0] = UnpackOut.panicked ∧
    unpack [1, 0, 0, 0, 0, 0, 0, 0, 0, 5, 0, 0, 0] ≠
      UnpackOut.fail ProgramError.InvalidInstructionData := by
  decide

/-- C1 amended: `unpack` returns `InvalidInstructionData` when the buffer is
empty, when the `Write` offset `u64` or the `Reallocate` data_length `u64` is
truncated, and when the tag byte is not in `0..=4`; but a truncated `Write`
length `u32` and a declared `Write` length exceeding the remaining bytes make
it panic rather than return `InvalidInstructionData`. -/
theorem C1_amended_decode_errors (input : List Nat) :
    (input = [] → unpack input = UnpackOut.fail ProgramError.InvalidInstructionData) ∧
    (∀ rest, input = 1 :: rest → rest.length < 8 →
      unpack input = UnpackOut.fail ProgramError.InvalidInstructionData) ∧
    (∀ rest, input = 1 :: rest → 8 ≤ rest.length → rest.length < 12 →
      unpack input = UnpackOut.panicked) ∧
    (∀ rest, input = 1 :: rest → 12 ≤ rest.length →
      rest.length - 12 < leDecode ((rest.drop 8).take 4) →
      unpack input = UnpackOut.panicked) ∧
    (∀ rest, input = 4 :: rest → rest.length < 8 →
      unpack input = UnpackOut.fail ProgramError.InvalidInstructionData) ∧
    (∀ tag rest, input = tag :: rest → 5 ≤ tag →
      unpack input = UnpackOut.fail ProgramError.InvalidInstructionData) := by
  refine ⟨fun h => ?_, fun rest h h8 => ?_, fun rest h h8 h12 => ?_,
    fun rest h h12 hlen => ?_, fun rest h h8 => ?_, fun tag rest h h5 => ?_⟩
  · subst h; rfl
  · subst h; simp [unpack, h8]
  · subst h; simp [unpack, Nat.not_lt.mpr h8, show rest.length - 8 < 4 by omega]
  · subst h
    have hcond : ((rest.drop 8).drop 4).length < leDecode ((rest.drop 8).take 4) := by
      have hd : ((rest.drop 8).drop 4).length = rest.length - 12 := by
        simp [List.length_drop]
      rw [hd]; exact hlen
    simp [unpack, hcond, show ¬ rest.length < 8 by omega,
      show ¬ rest.length - 8 < 4 by omega]
    exact hlen
  · subst h; simp [unpack, h8]
  · subst h
    have h0 : ¬ tag = 0 := by omega
    have h1 : ¬ tag = 1 := by omega
    have h2 : ¬ tag = 2 := by omega
    have h3 : ¬ tag = 3 := by omega
    have h4 : ¬ tag = 4 := by omega
    simp [unpack, h0, h1, h2, h3, h4]

theorem C1_amended_decode_errors_witness :
    unpack [] = UnpackOut.fail ProgramError.InvalidInstructionData ∧
    unpack [1, 0, 0] = UnpackOut.fail ProgramError.InvalidInstructionData ∧
    unpack [1, 0, 0, 0, 0, 0, 0, 0, 0, 0] = UnpackOut.panicked ∧
    unpack [1, 0, 0, 0, 0, 0, 0, 0, 0, 9, 0, 0, 0] = UnpackOut.panicked ∧
    unpack [4, 1, 2] = UnpackOut.fail ProgramError.InvalidInstructionData ∧
    unpack [7] = UnpackOut.fail ProgramError.InvalidInstructionData :=
  ⟨(C1_amended_decode_errors []).1 rfl,
    (C1_amended_decode_errors _).2.1 [0, 0] rfl (by decide),
    (C1_amended_decode_errors _).2.2.1 [0, 0, 0, 0, 0, 0, 0, 0, 0] rfl (by decide)
      (by decide),
    (C1_amended_decode_errors _).2.2.2.1 [0, 0, 0, 0, 0, 0, 0, 0, 9, 0, 0, 0] rfl
      (by decide) (by decide),
    (C1_amended_decode_errors _).2.2.2.2.1 [1, 2] rfl (by decide),
    (C1_amended_decode_errors _).2.2.2.2.2 7 [] rfl (by decide)⟩

theorem take_append_len (l1 l2 : List Nat) (n : Nat) (h : l1.length = n) :
    (l1 ++ l2).take n = l1 := by
  subst h; exact List.take_left l1 l2

theorem drop_append_len (l1 l2 : List Nat) (n : Nat) (h : l1.length = n) :
    (l1 ++ l2).drop n = l2 := by
  subst h; exact List.drop_left l1 l2

/-- C2 amended: decoding the encoding gives back the same value for every
variant — for `Write` provided the data length fits the 4-byte length field
(`data.len() as u32` truncates lengths of `2 ^ 32` and beyond); the `u64`
bounds on offset and data_length are the Rust type invariants. -/
theorem C2_amended_roundtrip (offset dl : Nat) (data : List Nat)
    (hoff : offset < 2 ^ 64) (hdata : data.length < 2 ^ 32) (hdl : dl < 2 ^ 64) :
    unpack (pack RecordInstruction.InitializeRecord) =
      UnpackOut.ok RecordInstruction.InitializeRecord ∧
    unpack (pack (RecordInstruction.Write offset data)) =
      UnpackOut.ok (RecordInstruction.Write offset data) ∧
    unpack (pack RecordInstruction.SetAuthority) =
      UnpackOut.ok RecordInstruction.SetAuthority ∧
    unpack (pack RecordInstruction.CloseAccount) =
      UnpackOut.ok RecordInstruction.CloseAccount ∧
    unpack (pack (RecordInstruction.Reallocate dl)) =
      UnpackOut.ok (RecordInstruction.Reallocate dl) := by
  refine ⟨rfl, ?_, rfl, rfl, ?_⟩
  · have h1 : (leBytes 8 offset ++ (leBytes 4 data.length ++ data)).take 8 =
        leBytes 8 offset :=
      take_append_len _ _ _ (leBytes_length 8 offset)
    have h2 : (leBytes 8 offset ++ (leBytes 4 data.length ++ data)).drop 8 =
        leBytes 4 data.length ++ data :=
      drop_append_len _ _ _ (leBytes_length 8 offset)
    have h3 : (leBytes 4 data.length ++ data).take 4 = leBytes 4 data.length :=
      take_append_len _ _ _ (leBytes_length 4 data.length)
    have h4 : (leBytes 4 data.length ++ data).drop 4 = data :=
      drop_append_len _ _ _ (leBytes_length 4 data.length)
    have hlen : (leBytes 8 offset ++ (leBytes 4 data.length ++ data)).length =
        12 + data.length := by
      simp [leBytes_length]; omega
    simp [pack, unpack, h1, h2, h3, h4, hlen, leDecode_leBytes,
      show ¬ 12 + data.length < 8 by omega,
      show ¬ 12 + data.length - 8 < 4 by omega]
    rw [Nat.mod_eq_of_lt (show offset < 18446744073709551616 by omega),
      Nat.mod_eq_of_lt (show data.length < 4294967296 by omega)]
    simp
  · have h8 : (leBytes 8 dl).take 8 = leBytes 8 dl := by
      conv_lhs => rw [← leBytes_length 8 dl]
      exact List.take_length _
    simp [pack, unpack, leBytes_length, h8, leDecode_leBytes]
    omega

theorem C2_amended_roundtrip_witness :
    (3 < 2 ^ 64 ∧ ([6, 7] : List Nat).length < 2 ^ 32 ∧ 5 < 2 ^ 64) ∧
    (unpack (pack RecordInstruction.InitializeRecord) =
        UnpackOut.ok RecordInstruction.InitializeRecord ∧
      unpack (pack (RecordInstruction.Write 3 [6, 7])) =
        UnpackOut.ok (RecordInstruction.Write 3 [6, 7]) ∧
      unpack (pack RecordInstruction.SetAuthority) =
        UnpackOut.ok RecordInstruction.SetAuthority ∧
      unpack (pack RecordInstruction.CloseAccount) =
        UnpackOut.ok RecordInstruction.CloseAccount ∧
      unpack (pack (RecordInstruction.Reallocate 5)) =
        UnpackOut.ok (RecordInstruction.Reallocate 5)) :=
  ⟨⟨by norm_num, by norm_num, by norm_num⟩,
    C2_amended_roundtrip 3 5 [6, 7] (by norm_num) (by norm_num) (by norm_num)⟩

theorem unpack_pack_write_wrap (d : List Nat) (hd : d.length = 2 ^ 32) :
    unpack (pack (RecordInstruction.Write 0 d)) =
      UnpackOut.ok (RecordInstruction.Write 0 []) := by
  have h1 : (leBytes 8 0 ++ (leBytes 4 d.length ++ d)).take 8 = leBytes 8 0 :=
    take_append_len _ _ _ (leBytes_length 8 0)
  have h2 : (leBytes 8 0 ++ (leBytes 4 d.length ++ d)).drop 8 =
      leBytes 4 d.length ++ d :=
    drop_append_len _ _ _ (leBytes_length 8 0)
  have h3 : (leBytes 4 d.length ++ d).take 4 = leBytes 4 d.length :=
    take_append_len _ _ _ (leBytes_length 4 d.length)
  have h4 : (leBytes 4 d.length ++ d).drop 4 = d :=
    drop_append_len _ _ _ (leBytes_length 4 d.length)
  have hlen : (leBytes 8 0 ++ (leBytes 4 d.length ++ d)).length = 12 + d.length := by
    simp [leBytes_length]; omega
  have hmod : leDecode (leBytes 4 d.length) = 0 := by
    rw [leDecode_leBytes, hd]
    norm_num
  simp only [pack, unpack, h1, h2, h3, h4, hlen, hmod]
  rw [if_pos trivial,
    if_neg (show ¬ 12 + d.length < 8 by omega),
    if_neg (show ¬ 12 + d.length - 8 < 4 by omega),
    if_neg (show ¬ d.length < 0 by omega), List.take_zero, leDecode_leBytes]
  norm_num

/-- C2 counterexample: a `Write` whose data has length exactly `2 ^ 32` does
not round-trip — `pack` stores the length as `data.len() as u32`, which wraps
to 0, so `unpack` returns a `Write` with empty data instead of the original. -/
theorem C2_counterexample :
    unpack (pack (RecordInstruction.Write 0 (List.replicate (2 ^ 32) 0))) ≠
      UnpackOut.ok (RecordInstruction.Write 0 (List.replicate (2 ^ 32) 0)) := by
  intro hEq
  rw [unpack_pack_write_wrap (List.replicate (2 ^ 32) 0)
    (List.length_replicate _ _)] at hEq
  simp only [UnpackOut.ok.injEq, RecordInstruction.Write.injEq, true_and] at hEq
  have hB := congrArg List.length hEq
  rw [List.length_replicate] at hB
  norm_num at hB

theorem recordIsInitialized_iff (buf : List Nat) :
    recordIsInitialized buf = true ↔ buf.head? = some CURRENT_VERSION := by
  simp [recordIsInitialized]

theorem check_authority_ok (a : AccountInfo) (expected : List Nat)
    (hkey : expected = a.key) (hsig : a.is_signer = true) :
    check_authority a expected = none := by
  simp [check_authority, hkey, hsig]

theorem writeBytesAt_length (buf bytes : List Nat) (start : Nat)
    (h : start + bytes.length ≤ buf.length) :
    (writeBytesAt buf start bytes).length = buf.length := by
  simp [writeBytesAt, List.length_append, List.length_take, List.length_drop]
  omega

theorem writeBytesAt_getElem_lt (buf bytes : List Nat) (start j : Nat)
    (h : start + bytes.length ≤ buf.length) (hj : j < start) :
    (writeBytesAt buf start bytes)[j]? = buf[j]? := by
  unfold writeBytesAt
  have h1 : (buf.take start).length = start := by
    rw [List.length_take]; omega
  have h2 : (buf.take start ++ bytes).length = start + bytes.length := by
    rw [List.length_append, h1]
  rw [List.getElem?_append, if_pos (by rw [h2]; omega),
    List.getElem?_append, if_pos (by rw [h1]; exact hj),
    List.getElem?_take, if_pos hj]

theorem writeBytesAt_getElem_mid (buf bytes : List Nat) (start j : Nat)
    (h : start + bytes.length ≤ buf.length) (hj : j < bytes.length) :
    (writeBytesAt buf start bytes)[start + j]? = bytes[j]? := by
  unfold writeBytesAt
  have h1 : (buf.take start).length = start := by
    rw [List.length_take]; omega
  have h2 : (buf.take start ++ bytes).length = start + bytes.length := by
    rw [List.length_append, h1]
  rw [List.getElem?_append, if_pos (by rw [h2]; omega),
    List.getElem?_append, if_neg (by rw [h1]; omega), h1]
  congr 1
  omega

theorem writeBytesAt_getElem_ge (buf bytes : List Nat) (start j : Nat)
    (h : start + bytes.length ≤ buf.length) (hj : start + bytes.length ≤ j) :
    (writeBytesAt buf start bytes)[j]? = buf[j]? := by
  unfold writeBytesAt
  have h1 : (buf.take start).length = start := by
    rw [List.length_take]; omega
  have h2 : (buf.take start ++ bytes).length = start + bytes.length := by
    rw [List.length_append, h1]
  rw [List.getElem?_append, if_neg (by rw [h2]; omega), h2,
    List.getElem?_drop]
  congr 1
  omega

/-- C6: Initialize fails `InvalidAccountData` on a buffer shorter than 33
bytes, fails `AccountAlreadyInitialized` (mutating nothing) when the first
byte already equals `CURRENT_VERSION`, and otherwise writes the authority
account's identity into bytes 1..33 and `CURRENT_VERSION` into byte 0 —
with no condition on the authority's signer flag. -/
theorem C6_process_init (accounts : List AccountInfo) (rec auth : AccountInfo)
    (h0 : accounts[0]? = some rec) (h1 : accounts[1]? = some auth)
    (hkey : auth.key.length = 32) :
    (rec.data.length < 33 →
      processInitArm accounts = .fail ProgramError.InvalidAccountData accounts) ∧
    (33 ≤ rec.data.length → rec.data.head? = some CURRENT_VERSION →
      processInitArm accounts =
        .fail ProgramError.AccountAlreadyInitialized accounts) ∧
    (33 ≤ rec.data.length → rec.data.head? ≠ some CURRENT_VERSION →
      processInitArm accounts =
        .ok (accounts.set 0 { rec with
          data := CURRENT_VERSION :: (auth.key ++ rec.data.drop 33) })) := by
  refine ⟨fun hlt => ?_, fun hge hini => ?_, fun hge hini => ?_⟩
  · simp [processInitArm, h0, h1, WRITABLE_START_INDEX, hlt]
  · simp [processInitArm, h0, h1, WRITABLE_START_INDEX,
      show ¬ rec.data.length < 33 by omega, recordIsInitialized, hini]
  · have hne : rec.data ≠ [] := by
      intro hnil; rw [hnil] at hge; simp at hge
    obtain ⟨r0, rtl, hcons⟩ : ∃ a l, rec.data = a :: l := by
      cases hc : rec.data with
      | nil => exact absurd hc hne
      | cons a l => exact ⟨a, l, rfl⟩
    have hw : writeBytesAt (writeBytesAt rec.data 1 auth.key) 0 [CURRENT_VERSION] =
        CURRENT_VERSION :: (auth.key ++ rec.data.drop 33) := by
      rw [hcons]
      simp [writeBytesAt, hkey, List.drop_append_eq_append_drop]
    simp only [processInitArm, h0, h1]
    rw [if_neg (by simp [WRITABLE_START_INDEX]; omega),
      if_neg (by simp [recordIsInitialized, hini]), hw]

theorem C6_process_init_witness :
    ([⟨List.replicate 32 2, false, 5, 0 :: List.replicate 32 9⟩,
        ⟨List.replicate 32 7, false, 0, []⟩] : List AccountInfo)[0]? =
      some ⟨List.replicate 32 2, false, 5, 0 :: List.replicate 32 9⟩ ∧
    ([⟨List.replicate 32 2, false, 5, 0 :: List.replicate 32 9⟩,
        ⟨List.replicate 32 7, false, 0, []⟩] : List AccountInfo)[1]? =
      some ⟨List.replicate 32 7, false, 0, []⟩ ∧
    (List.replicate 32 7 : List Nat).length = 32 ∧
    33 ≤ (AccountInfo.data ⟨List.replicate 32 2, false, 5,
      0 :: List.replicate 32 9⟩).length ∧
    (AccountInfo.data ⟨List.replicate 32 2, false, 5,
      0 :: List.replicate 32 9⟩).head? ≠ some CURRENT_VERSION ∧
    processInitArm [⟨List.replicate 32 2, false, 5, 0 :: List.replicate 32 9⟩,
        ⟨List.replicate 32 7, false, 0, []⟩] =
      .ok ([⟨List.replicate 32 2, false, 5, 0 :: List.replicate 32 9⟩,
          ⟨List.replicate 32 7, false, 0, []⟩].set 0
        { (⟨List.replicate 32 2, false, 5, 0 :: List.replicate 32 9⟩ : AccountInfo) with
          data := CURRENT_VERSION ::
            ((⟨List.replicate 32 7, false, 0, []⟩ : AccountInfo).key ++
              (AccountInfo.data ⟨List.replicate 32 2, false, 5,
                0 :: List.replicate 32 9⟩).drop 33) }) :=
  ⟨rfl, rfl, by decide, by decide, by decide,
    (C6_process_init _ _ _ rfl rfl (by decide)).2.2 (by decide) (by decide)⟩

theorem WRITABLE_START_INDEX_eq : WRITABLE_START_INDEX = 33 := rfl

/-- C3: on an initialized record with a matching, signing authority, Write
computes `start = 33 + offset` and `stop = start + data.length` with
saturating `usize` arithmetic, fails `AccountDataTooSmall` without touching
the buffer when `stop` exceeds the buffer length, and otherwise overwrites
exactly `[start, stop)` with the data verbatim, leaving every byte outside
that range and the buffer length unchanged.  The buffer-length bound is the
Rust slice size invariant. -/
theorem C3_process_write (accounts : List AccountInfo) (rec auth : AccountInfo)
    (offset : Nat) (data : List Nat)
    (h0 : accounts[0]? = some rec) (h1 : accounts[1]? = some auth)
    (hlen : 33 ≤ rec.data.length)
    (hinit : rec.data.head? = some CURRENT_VERSION)
    (hkey : auth.key = recordAuthority rec.data)
    (hsig : auth.is_signer = true)
    (hbuf : rec.data.length < USIZE_MAX) :
    (rec.data.length < satAdd (satAdd 33 offset) data.length →
      processWriteArm accounts offset data =
        .fail ProgramError.AccountDataTooSmall accounts) ∧
    (satAdd (satAdd 33 offset) data.length ≤ rec.data.length →
      processWriteArm accounts offset data =
        .ok (accounts.set 0 { rec with
          data := writeBytesAt rec.data (33 + offset) data }) ∧
      (writeBytesAt rec.data (33 + offset) data).length = rec.data.length ∧
      (∀ j, j < 33 + offset →
        (writeBytesAt rec.data (33 + offset) data)[j]? = rec.data[j]?) ∧
      (∀ j, 33 + offset + data.length ≤ j →
        (writeBytesAt rec.data (33 + offset) data)[j]? = rec.data[j]?) ∧
      (∀ j, j < data.length →
        (writeBytesAt rec.data (33 + offset) data)[33 + offset + j]? = data[j]?)) := by
  have hca : check_authority auth (recordAuthority rec.data) = none :=
    check_authority_ok auth _ hkey.symm hsig
  have hrb : recordIsInitialized rec.data = true :=
    (recordIsInitialized_iff _).mpr hinit
  have hbuf' : rec.data.length < 2 ^ 64 - 1 := by
    simpa [USIZE_MAX] using hbuf
  constructor
  · intro hfail
    have hfail' : rec.data.length <
        min (min (33 + offset) (2 ^ 64 - 1) + data.length) (2 ^ 64 - 1) := by
      simpa [satAdd, USIZE_MAX] using hfail
    simp [processWriteArm, h0, h1, WRITABLE_START_INDEX_eq, hrb, hca, satAdd,
      USIZE_MAX, show ¬ rec.data.length < 33 by omega]
    omega
  · intro hok
    have hok' : min (min (33 + offset) (2 ^ 64 - 1) + data.length) (2 ^ 64 - 1) ≤
        rec.data.length := by
      simpa [satAdd, USIZE_MAX] using hok
    have hs1 : satAdd 33 offset = 33 + offset := by
      simp only [satAdd, USIZE_MAX]; omega
    have hs2 : satAdd (33 + offset) data.length = 33 + offset + data.length := by
      simp only [satAdd, USIZE_MAX]; omega
    have hle : 33 + offset + data.length ≤ rec.data.length := by omega
    refine ⟨?_, writeBytesAt_length _ _ _ (by omega),
      fun j hj => writeBytesAt_getElem_lt _ _ _ _ (by omega) hj,
      fun j hj => writeBytesAt_getElem_ge _ _ _ _ (by omega) hj,
      fun j hj => writeBytesAt_getElem_mid _ _ _ _ (by omega) hj⟩
    simp [processWriteArm, h0, h1, WRITABLE_START_INDEX_eq, hrb, hca, hs1, hs2,
      show ¬ rec.data.length < 33 by omega,
      show ¬ rec.data.length < 33 + offset + data.length by omega]

theorem C3_process_write_witness :
    (([⟨List.replicate 32 2, false, 5,
          1 :: (List.replicate 32 7 ++ List.replicate 6 0)⟩,
        ⟨List.replicate 32 7, true, 0, []⟩] : List AccountInfo)[0]? =
      some ⟨List.replicate 32 2, false, 5,
        1 :: (List.replicate 32 7 ++ List.replicate 6 0)⟩) ∧
    satAdd (satAdd 33 2) 2 ≤
      (1 :: (List.replicate 32 7 ++ List.replicate 6 0) : List Nat).length ∧
    processWriteArm [⟨List.replicate 32 2, false, 5,
          1 :: (List.replicate 32 7 ++ List.replicate 6 0)⟩,
        ⟨List.replicate 32 7, true, 0, []⟩] 2 [8, 9] =
      .ok ([⟨List.replicate 32 2, false, 5,
            1 :: (List.replicate 32 7 ++ List.replicate 6 0)⟩,
          ⟨List.replicate 32 7, true, 0, []⟩].set 0
        { (⟨List.replicate 32 2, false, 5,
            1 :: (List.replicate 32 7 ++ List.replicate 6 0)⟩ : AccountInfo) with
          data := writeBytesAt (1 :: (List.replicate 32 7 ++ List.replicate 6 0))
            (33 + 2) [8, 9] }) :=
  ⟨rfl, by decide,
    ((C3_process_write _ _ _ 2 [8, 9] rfl rfl (by decide) (by decide) (by decide)
      (by decide) (by decide)).2 (by decide)).1⟩

/-- C8: on an initialized record with a matching, signing current authority,
SetAuthority replaces the stored authority (bytes 1..33) with the
new-authority account's identity and changes nothing else: byte 0 (version),
the payload bytes from 33 on, the buffer length, the record's balance, and
every other account are identical before and after. -/
theorem C8_set_authority (accounts : List AccountInfo) (rec auth newAuth : AccountInfo)
    (h0 : accounts[0]? = some rec) (h1 : accounts[1]? = some auth)
    (h2 : accounts[2]? = some newAuth)
    (hlen : 33 ≤ rec.data.length)
    (hinit : rec.data.head? = some CURRENT_VERSION)
    (hkey : auth.key = recordAuthority rec.data)
    (hsig : auth.is_signer = true)
    (hnewlen : newAuth.key.length = 32) :
    processSetAuthorityArm accounts =
      .ok (accounts.set 0 { rec with data := writeBytesAt rec.data 1 newAuth.key }) ∧
    recordAuthority (writeBytesAt rec.data 1 newAuth.key) = newAuth.key ∧
    (writeBytesAt rec.data 1 newAuth.key).head? = rec.data.head? ∧
    (writeBytesAt rec.data 1 newAuth.key).drop 33 = rec.data.drop 33 ∧
    (writeBytesAt rec.data 1 newAuth.key).length = rec.data.length ∧
    ({ rec with data := writeBytesAt rec.data 1 newAuth.key }).lamports =
      rec.lamports ∧
    (∀ i, i ≠ 0 →
      (accounts.set 0 { rec with
        data := writeBytesAt rec.data 1 newAuth.key })[i]? = accounts[i]?) := by
  have hca : check_authority auth (recordAuthority rec.data) = none :=
    check_authority_ok auth _ hkey.symm hsig
  have hrb : recordIsInitialized rec.data = true :=
    (recordIsInitialized_iff _).mpr hinit
  obtain ⟨r0, rtl, hcons⟩ : ∃ a l, rec.data = a :: l := by
    cases hc : rec.data with
    | nil => rw [hc] at hlen; simp at hlen
    | cons a l => exact ⟨a, l, rfl⟩
  have hw : writeBytesAt rec.data 1 newAuth.key =
      r0 :: (newAuth.key ++ rtl.drop 32) := by
    rw [hcons]
    simp [writeBytesAt, hnewlen]
  refine ⟨?_, ?_, ?_, ?_, ?_, rfl, fun i hi => List.getElem?_set_ne (Ne.symm hi)⟩
  · simp [processSetAuthorityArm, h0, h1, h2, WRITABLE_START_INDEX_eq, hrb, hca,
      show ¬ rec.data.length < 33 by omega]
  · rw [hw]
    simp only [recordAuthority, List.drop_one, List.tail_cons]
    exact take_append_len _ _ _ hnewlen
  · rw [hw, hcons]
    simp
  · rw [hw, hcons]
    show (newAuth.key ++ rtl.drop 32).drop 32 = rtl.drop 32
    exact drop_append_len _ _ _ hnewlen
  · rw [hcons] at hlen
    simp only [List.length_cons] at hlen
    rw [hw, hcons]
    simp [List.length_drop, hnewlen]
    omega

theorem C8_set_authority_witness :
    ([⟨List.replicate 32 2, false, 5, 1 :: List.replicate 32 7⟩,
        ⟨List.replicate 32 7, true, 0, []⟩,
        ⟨List.replicate 32 4, false, 9, []⟩] : List AccountInfo)[2]? =
      some ⟨List.replicate 32 4, false, 9, []⟩ ∧
    (List.replicate 32 7 : List Nat) =
      recordAuthority (1 :: List.replicate 32 7) ∧
    processSetAuthorityArm [⟨List.replicate 32 2, false, 5, 1 :: List.replicate 32 7⟩,
        ⟨List.replicate 32 7, true, 0, []⟩,
        ⟨List.replicate 32 4, false, 9, []⟩] =
      .ok ([⟨List.replicate 32 2, false, 5, 1 :: List.replicate 32 7⟩,
          ⟨List.replicate 32 7, true, 0, []⟩,
          ⟨List.replicate 32 4, false, 9, []⟩].set 0
        { (⟨List.replicate 32 2, false, 5, 1 :: List.replicate 32 7⟩ : AccountInfo) with
          data := writeBytesAt (1 :: List.replicate 32 7) 1 (List.replicate 32 4) }) :=
  ⟨rfl, by decide,
    (C8_set_authority _ _ _ _ rfl rfl rfl (by decide) (by decide) (by decide)
      (by decide) (by decide)).1⟩

/-- C5: on an initialized record with a matching, signing authority,
CloseAccount adds the record's entire balance to the destination's balance
with checked `u64` addition: if the sum exceeds `u64::MAX` it fails with the
`Overflow` custom error leaving every account (hence both balances)
unchanged; otherwise the destination balance becomes the old sum, the
record's balance becomes zero, and the record's bytes (version and authority
header included) are untouched. -/
theorem C5_close_account (accounts : List AccountInfo) (rec auth dest : AccountInfo)
    (h0 : accounts[0]? = some rec) (h1 : accounts[1]? = some auth)
    (h2 : accounts[2]? = some dest)
    (hlen : 33 ≤ rec.data.length)
    (hinit : rec.data.head? = some CURRENT_VERSION)
    (hkey : auth.key = recordAuthority rec.data)
    (hsig : auth.is_signer = true) :
    (U64_MAX < dest.lamports + rec.lamports →
      processCloseArm accounts = .fail RecordErrorOverflow accounts) ∧
    (dest.lamports + rec.lamports ≤ U64_MAX →
      processCloseArm accounts =
        .ok ((accounts.set 2 { dest with
          lamports := dest.lamports + rec.lamports }).set 0
            { rec with lamports := 0 }) ∧
      ({ rec with lamports := 0 }).data = rec.data) := by
  have hca : check_authority auth (recordAuthority rec.data) = none :=
    check_authority_ok auth _ hkey.symm hsig
  have hrb : recordIsInitialized rec.data = true :=
    (recordIsInitialized_iff _).mpr hinit
  constructor
  · intro hover
    simp [processCloseArm, h0, h1, h2, WRITABLE_START_INDEX_eq, hrb, hca,
      show ¬ rec.data.length < 33 by omega, hover]
  · intro hok
    refine ⟨?_, rfl⟩
    simp [processCloseArm, h0, h1, h2, WRITABLE_START_INDEX_eq, hrb, hca,
      show ¬ rec.data.length < 33 by omega,
      show ¬ U64_MAX < dest.lamports + rec.lamports by omega]

theorem C5_close_account_witness :
    ([⟨List.replicate 32 2, false, 5, 1 :: List.replicate 32 7⟩,
        ⟨List.replicate 32 7, true, 0, []⟩,
        ⟨List.replicate 32 4, false, 9, []⟩] : List AccountInfo)[0]? =
      some ⟨List.replicate 32 2, false, 5, 1 :: List.replicate 32 7⟩ ∧
    (9 : Nat) + 5 ≤ U64_MAX ∧
    processCloseArm [⟨List.replicate 32 2, false, 5, 1 :: List.replicate 32 7⟩,
        ⟨List.replicate 32 7, true, 0, []⟩,
        ⟨List.replicate 32 4, false, 9, []⟩] =
      .ok (([⟨List.replicate 32 2, false, 5, 1 :: List.replicate 32 7⟩,
          ⟨List.replicate 32 7, true, 0, []⟩,
          ⟨List.replicate 32 4, false, 9, []⟩].set 2
        { (⟨List.replicate 32 4, false, 9, []⟩ : AccountInfo) with
          lamports := (9 : Nat) + 5 }).set 0
        { (⟨List.replicate 32 2, false, 5, 1 :: List.replicate 32 7⟩ : AccountInfo) with
          lamports := 0 }) :=
  ⟨rfl, by decide,
    ((C5_close_account _ _ _ _ rfl rfl rfl (by decide) (by decide) (by decide)
      (by decide)).2 (by decide)).1⟩

/-- C7 counterexample: `data_length = 2 ^ 64 - 1` converts into the 64-bit
host size type (so the claim demands success and a resize to
`33 + data_length`), but `size_of::<RecordData>().checked_add(..).unwrap()`
panics because `33 + data_length` overflows `usize` — the arm neither
succeeds nor returns an error. -/
theorem C7_counterexample :
    processReallocArm [⟨List.replicate 32 5, false, 0, 1 :: List.replicate 32 7⟩,
        ⟨List.replicate 32 7, true, 0, []⟩] (2 ^ 64 - 1) = POut.panicked ∧
    (2 ^ 64 - 1 : Nat) ≤ USIZE_MAX ∧
    processReallocArm [⟨List.replicate 32 5, false, 0, 1 :: List.replicate 32 7⟩,
        ⟨List.replicate 32 7, true, 0, []⟩] (2 ^ 64 - 1) ≠
      POut.ok ([⟨List.replicate 32 5, false, 0, 1 :: List.replicate 32 7⟩,
          ⟨List.replicate 32 7, true, 0, []⟩].set 0
        { (⟨List.replicate 32 5, false, 0, 1 :: List.replicate 32 7⟩ : AccountInfo) with
          data := hostRealloc (1 :: List.replicate 32 7) (33 + (2 ^ 64 - 1)) }) := by
  have hpan : processReallocArm [⟨List.replicate 32 5, false, 0,
      1 :: List.replicate 32 7⟩, ⟨List.replicate 32 7, true, 0, []⟩]
      (2 ^ 64 - 1) = POut.panicked := by decide
  refine ⟨hpan, by decide, fun h => ?_⟩
  rw [hpan] at h
  exact POut.noConfusion h

/-- C7 amended: on an initialized record with a matching, signing authority
and a `u64` `data_length`, Reallocate leaves the accounts untouched when the
buffer already holds at least `needed = 33 + data_length` bytes, and when it
is smaller grows it to exactly `needed` bytes preserving every existing byte
— provided `needed` fits the host size type; when `33 + data_length`
overflows `usize` the arm panics (the `InvalidArgument` conversion failure of
the claim is unreachable for `u64` inputs on the 64-bit target). -/
theorem C7_amended_realloc (accounts : List AccountInfo) (rec auth : AccountInfo)
    (dl : Nat)
    (h0 : accounts[0]? = some rec) (h1 : accounts[1]? = some auth)
    (hlen : 33 ≤ rec.data.length)
    (hinit : rec.data.head? = some CURRENT_VERSION)
    (hkey : auth.key = recordAuthority rec.data)
    (hsig : auth.is_signer = true)
    (hdl : dl ≤ USIZE_MAX) :
    (33 + dl ≤ USIZE_MAX → 33 + dl ≤ rec.data.length →
      processReallocArm accounts dl = .ok accounts) ∧
    (33 + dl ≤ USIZE_MAX → rec.data.length < 33 + dl →
      processReallocArm accounts dl =
        .ok (accounts.set 0 { rec with
          data := rec.data ++ List.replicate (33 + dl - rec.data.length) 0 }) ∧
      (rec.data ++ List.replicate (33 + dl - rec.data.length) 0).length = 33 + dl ∧
      (rec.data ++ List.replicate (33 + dl - rec.data.length) 0).take
        rec.data.length = rec.data) ∧
    (USIZE_MAX < 33 + dl → processReallocArm accounts dl = POut.panicked) := by
  have hca : check_authority auth (recordAuthority rec.data) = none :=
    check_authority_ok auth _ hkey.symm hsig
  have hrb : recordIsInitialized rec.data = true :=
    (recordIsInitialized_iff _).mpr hinit
  have hdl' : dl ≤ 2 ^ 64 - 1 := by simpa [USIZE_MAX] using hdl
  refine ⟨fun hfit hbig => ?_, fun hfit hsmall => ?_, fun hover => ?_⟩
  · have hfit' : 33 + dl ≤ 2 ^ 64 - 1 := by simpa [USIZE_MAX] using hfit
    simp [processReallocArm, h0, h1, WRITABLE_START_INDEX_eq, hrb, hca,
      USIZE_MAX, show ¬ rec.data.length < 33 by omega, hbig]
    rw [if_neg (by omega), if_neg (by omega)]
  · have hfit' : 33 + dl ≤ 2 ^ 64 - 1 := by simpa [USIZE_MAX] using hfit
    have hre : hostRealloc rec.data (33 + dl) =
        rec.data ++ List.replicate (33 + dl - rec.data.length) 0 := by
      unfold hostRealloc
      rw [List.take_of_length_le (by omega)]
    refine ⟨?_, ?_, ?_⟩
    · simp [processReallocArm, h0, h1, WRITABLE_START_INDEX_eq, hrb, hca,
        USIZE_MAX, show ¬ rec.data.length < 33 by omega,
        show ¬ 33 + dl ≤ rec.data.length by omega, hre]
      rw [if_neg (by omega), if_neg (by omega)]
    · simp [List.length_append, List.length_replicate]
      omega
    · exact List.take_left rec.data _
  · have hover' : 2 ^ 64 - 1 < 33 + dl := by simpa [USIZE_MAX] using hover
    simp [processReallocArm, h0, h1, WRITABLE_START_INDEX_eq, hrb, hca,
      USIZE_MAX, show ¬ rec.data.length < 33 by omega]
    rw [if_neg (by omega), if_pos (by omega)]

theorem C7_amended_realloc_witness :
    ([⟨List.replicate 32 2, false, 5, 1 :: List.replicate 32 7⟩,
        ⟨List.replicate 32 7, true, 0, []⟩] : List AccountInfo)[0]? =
      some ⟨List.replicate 32 2, false, 5, 1 :: List.replicate 32 7⟩ ∧
    (20 : Nat) ≤ USIZE_MAX ∧ 33 + 20 ≤ USIZE_MAX ∧
    (1 :: List.replicate 32 7 : List Nat).length < 33 + 20 ∧
    processReallocArm [⟨List.replicate 32 2, false, 5, 1 :: List.replicate 32 7⟩,
        ⟨List.replicate 32 7, true, 0, []⟩] 20 =
      .ok ([⟨List.replicate 32 2, false, 5, 1 :: List.replicate 32 7⟩,
          ⟨List.replicate 32 7, true, 0, []⟩].set 0
        { (⟨List.replicate 32 2, false, 5, 1 :: List.replicate 32 7⟩ : AccountInfo) with
          data := (1 :: List.replicate 32 7) ++
            List.replicate (33 + 20 - (1 :: List.replicate 32 7 : List Nat).length) 0 }) :=
  ⟨rfl, by decide, by decide, by decide,
    ((C7_amended_realloc _ _ _ 20 rfl rfl (by decide) (by decide) (by decide)
      (by decide) (by decide)).2.1 (by decide) (by decide)).1⟩
